import Mathlib

/-!
Verification of the vocabmaster data-integrity subsystem.

Shallow embedding of the Python sources `vocabmaster/csv_handler.py`,
`vocabmaster/utils.py` and `vocabmaster/recovery.py`.  Filesystems are
modelled as partial maps from path strings to file contents; stateful
functions become explicit state passing; fallible steps of the runtime
environment (chmod, rename, copy) are modelled by explicit success flags.
-/

namespace VocabMaster

/-! ## Filesystem model -/

/-- A filesystem: a partial map from paths to file contents. -/
abbrev FS := String → Option String

/-- Write (create or overwrite) the file at path `p` with content `c`. -/
def fsSet (fs : FS) (p : String) (c : String) : FS :=
  fun q => if q = p then some c else fs q

/-- Remove the file at path `p` (`os.unlink`). -/
def fsDel (fs : FS) (p : String) : FS :=
  fun q => if q = p then none else fs q

/-! ## `atomic_write_csv` (csv_handler.py, lines 26–59)

`tempfile.mkstemp` creates a fresh empty temp file next to the target; the
writer callback then fills it; `os.chmod` transfers the pre-existing mode and
`os.replace` atomically renames the temp file over the target.  Any exception
from the callback, the chmod or the rename reaches the `except` block, which
unlinks the temp file and re-raises.  The writer callback is modelled by its
outcome: the final content on success, or the content left in the temp file
at the moment it raised.  `os.chmod` / `os.replace` failures are modelled by
boolean success flags. -/

inductive WriterOutcome where
  | ok (content : String)
  | raised (midContent : String)

/-- Shallow embedding of `atomic_write_csv`. Returns whether the write
completed together with the resulting filesystem. -/
def atomic_write_csv (fs : FS) (target temp : String)
    (writer : WriterOutcome) (chmodOk replaceOk : Bool) : Bool × FS :=
  -- tempfile.mkstemp: fresh empty temp file
  let fs0 := fsSet fs temp ""
  match writer with
  | .raised midContent =>
    -- exception inside write_function: unlink temp, re-raise
    (false, fsDel (fsSet fs0 temp midContent) temp)
  | .ok content =>
    let fs1 := fsSet fs0 temp content
    if chmodOk then
      if replaceOk then
        -- os.replace: target receives the temp content, temp disappears
        (true, fsDel (fsSet fs1 target content) temp)
      else
        (false, fsDel fs1 temp)
    else
      (false, fsDel fs1 temp)

/-- C1: if the writer callback (or the chmod / rename that follow it) raises,
`atomic_write_csv` leaves every path of the filesystem — in particular the
target — exactly as before the call and removes the temp file it created; the
target is replaced with the fully written content exactly when everything
succeeds. -/
theorem atomic_write_csv_atomic (fs : FS) (target temp : String)
    (writer : WriterOutcome) (chmodOk replaceOk : Bool)
    (hfresh : fs temp = none) (hne : temp ≠ target) :
    ((atomic_write_csv fs target temp writer chmodOk replaceOk).1 = false →
      ∀ p, (atomic_write_csv fs target temp writer chmodOk replaceOk).2 p = fs p) ∧
    (∀ content, writer = .ok content → chmodOk = true → replaceOk = true →
      (atomic_write_csv fs target temp writer chmodOk replaceOk).1 = true ∧
      (atomic_write_csv fs target temp writer chmodOk replaceOk).2 target = some content ∧
      ∀ p, p ≠ target →
        (atomic_write_csv fs target temp writer chmodOk replaceOk).2 p = fs p) := by
  constructor
  · intro hfail p
    cases writer with
    | raised midContent =>
      by_cases hp : p = temp
      · simp [atomic_write_csv, fsSet, fsDel, hp, hfresh]
      · simp [atomic_write_csv, fsSet, fsDel, hp]
    | ok content =>
      cases chmodOk with
      | false =>
        by_cases hp : p = temp
        · simp [atomic_write_csv, fsSet, fsDel, hp, hfresh]
        · simp [atomic_write_csv, fsSet, fsDel, hp]
      | true =>
        cases replaceOk with
        | false =>
          by_cases hp : p = temp
          · simp [atomic_write_csv, fsSet, fsDel, hp, hfresh]
          · simp [atomic_write_csv, fsSet, fsDel, hp]
        | true =>
          simp [atomic_write_csv] at hfail
  · intro content hw hc hr
    subst hw; subst hc; subst hr
    refine ⟨rfl, ?_, ?_⟩
    · simp [atomic_write_csv, fsSet, fsDel, hne, Ne.symm hne]
    · intro p hp
      by_cases hpt : p = temp
      · simp [atomic_write_csv, fsSet, fsDel, hpt, hfresh]
      · simp [atomic_write_csv, fsSet, fsDel, hpt, hp]

/-- Witness for C1 at a concrete input. -/
theorem atomic_write_csv_atomic_witness :
    (atomic_write_csv (fun _ => none) "vocab.csv" ".csv_x.tmp"
      (.raised "junk") true true).2 "vocab.csv" = none := by
  have h := atomic_write_csv_atomic (fun _ => none) "vocab.csv" ".csv_x.tmp"
    (.raised "junk") true true rfl (by decide)
  exact h.1 rfl "vocab.csv"

/-! ## Backup rotation (utils.py, `backup_file` lines 254–276 and
`backup_content` lines 229–251)

Both functions copy a new snapshot into the backup directory, glob the
snapshots sharing the stem, sort them by modification time (Python's sort is
stable, so the first file with minimal mtime comes first) and delete the
oldest one when the count exceeds the cap (10 for `backup_file`, 15 for
`backup_content`).  The directory is modelled as the list of matching
snapshot files in glob order; creating the snapshot appends a fresh entry. -/

structure BakFile where
  name : String
  mtime : Nat
  deriving DecidableEq, Repr

/-- First file with minimal mtime — the element Python's stable
`sorted(..., key=mtime)[0]` selects. -/
def oldestBackup : List BakFile → Option BakFile
  | [] => none
  | f :: fs =>
    match oldestBackup fs with
    | none => some f
    | some g => if f.mtime ≤ g.mtime then some f else some g

/-- Delete the oldest snapshot when the retention cap is exceeded. -/
def rotateBackups (cap : Nat) (files : List BakFile) : List BakFile :=
  if cap < files.length then
    match oldestBackup files with
    | some old => files.erase old
    | none => files
  else files

/-- One `backup_file` call: the fresh snapshot appears, then rotation at cap 10. -/
def backup_file_step (files : List BakFile) (fresh : BakFile) : List BakFile :=
  rotateBackups 10 (files ++ [fresh])

/-- One `backup_content` call: the fresh `gpt_request_*.bak` capture appears,
then rotation at cap 15. -/
def backup_content_step (files : List BakFile) (fresh : BakFile) : List BakFile :=
  rotateBackups 15 (files ++ [fresh])

theorem oldestBackup_mem {l : List BakFile} {o : BakFile}
    (h : oldestBackup l = some o) : o ∈ l := by
  induction l generalizing o with
  | nil => simp [oldestBackup] at h
  | cons f fs ih =>
    simp only [oldestBackup] at h
    cases hfs : oldestBackup fs with
    | none => rw [hfs] at h; simp at h; simp [h]
    | some g =>
      rw [hfs] at h
      by_cases hle : f.mtime ≤ g.mtime
      · simp [hle] at h; simp [h]
      · simp [hle] at h
        exact List.mem_cons_of_mem f (h ▸ ih hfs)

theorem oldestBackup_isSome {l : List BakFile} (h : l ≠ []) :
    (oldestBackup l).isSome := by
  cases l with
  | nil => simp at h
  | cons f fs =>
    simp only [oldestBackup]
    cases oldestBackup fs with
    | none => simp
    | some g => by_cases hle : f.mtime ≤ g.mtime <;> simp [hle]

theorem oldestBackup_min {l : List BakFile} {o : BakFile}
    (h : oldestBackup l = some o) : ∀ f ∈ l, o.mtime ≤ f.mtime := by
  induction l generalizing o with
  | nil => simp [oldestBackup] at h
  | cons f fs ih =>
    intro x hx
    simp only [oldestBackup] at h
    cases hfs : oldestBackup fs with
    | none =>
      rw [hfs] at h; simp at h
      have hfsnil : fs = [] := by
        cases fs with
        | nil => rfl
        | cons b bs =>
          exfalso
          have hs := oldestBackup_isSome (l := b :: bs) (by simp)
          rw [hfs] at hs; simp at hs
      subst hfsnil
      simp at hx
      simp [hx, ← h]
    | some g =>
      rw [hfs] at h
      by_cases hle : f.mtime ≤ g.mtime
      · simp [hle] at h
        subst h
        rcases List.mem_cons.mp hx with rfl | hxs
        · exact le_refl _
        · exact le_trans hle (ih hfs x hxs)
      · simp [hle] at h
        subst h
        rcases List.mem_cons.mp hx with rfl | hxs
        · omega
        · exact ih hfs x hxs


theorem rotateBackups_length {cap : Nat} {files : List BakFile}
    (h : files.length ≤ cap + 1) : (rotateBackups cap files).length ≤ cap := by
  unfold rotateBackups
  by_cases hlt : cap < files.length
  · have hne : files ≠ [] := by
      intro he; subst he; simp at hlt
    have hsome := oldestBackup_isSome hne
    cases ho : oldestBackup files with
    | none => rw [ho] at hsome; simp at hsome
    | some old =>
      simp only [hlt, if_true, ho]
      have hmem := oldestBackup_mem ho
      have := List.length_erase_add_one hmem
      omega
  · simp only [hlt, if_false]
    omega

theorem backup_file_step_length {files : List BakFile} {fresh : BakFile}
    (h : files.length ≤ 10) : (backup_file_step files fresh).length ≤ 10 := by
  apply rotateBackups_length
  simp [List.length_append]
  omega

theorem backup_content_step_length {files : List BakFile} {fresh : BakFile}
    (h : files.length ≤ 15) : (backup_content_step files fresh).length ≤ 15 := by
  apply rotateBackups_length
  simp [List.length_append]
  omega

/-- C3: starting from at most 10 (resp. 15) snapshots of a stem, any further
sequence of `backup_file` (resp. `backup_content`) calls keeps the count at
most 10 (resp. 15); and whenever the count would exceed the cap, what is
deleted is exactly a snapshot with the oldest modification time. -/
theorem backup_retention
    (files : List BakFile) (news : List BakFile) (fresh : BakFile)
    (files15 : List BakFile) (news15 : List BakFile)
    (h10 : files.length ≤ 10) (h15 : files15.length ≤ 15) :
    (news.foldl backup_file_step files).length ≤ 10 ∧
    (news15.foldl backup_content_step files15).length ≤ 15 ∧
    (10 < (files ++ [fresh]).length →
      ∃ o ∈ files ++ [fresh], (∀ f ∈ files ++ [fresh], o.mtime ≤ f.mtime) ∧
        backup_file_step files fresh = (files ++ [fresh]).erase o) ∧
    (15 < (files15 ++ [fresh]).length →
      ∃ o ∈ files15 ++ [fresh], (∀ f ∈ files15 ++ [fresh], o.mtime ≤ f.mtime) ∧
        backup_content_step files15 fresh = (files15 ++ [fresh]).erase o) := by
  refine ⟨?_, ?_, ?_, ?_⟩
  · induction news generalizing files with
    | nil => simpa using h10
    | cons n ns ih =>
      simp only [List.foldl_cons]
      exact ih _ (backup_file_step_length h10)
  · induction news15 generalizing files15 with
    | nil => simpa using h15
    | cons n ns ih =>
      simp only [List.foldl_cons]
      exact ih _ (backup_content_step_length h15)
  · intro hgt
    have hne : files ++ [fresh] ≠ [] := by simp
    have hsome := oldestBackup_isSome hne
    cases ho : oldestBackup (files ++ [fresh]) with
    | none => rw [ho] at hsome; simp at hsome
    | some o =>
      refine ⟨o, oldestBackup_mem ho, oldestBackup_min ho, ?_⟩
      unfold backup_file_step rotateBackups
      rw [if_pos hgt, ho]
  · intro hgt
    have hne : files15 ++ [fresh] ≠ [] := by simp
    have hsome := oldestBackup_isSome hne
    cases ho : oldestBackup (files15 ++ [fresh]) with
    | none => rw [ho] at hsome; simp at hsome
    | some o =>
      refine ⟨o, oldestBackup_mem ho, oldestBackup_min ho, ?_⟩
      unfold backup_content_step rotateBackups
      rw [if_pos hgt, ho]

/-- Witness for C3 at a concrete input. -/
theorem backup_retention_witness :
    (List.foldl backup_file_step [] [(⟨"a.bak", 5⟩ : BakFile)]).length ≤ 10 := by
  have h := backup_retention [] [⟨"a.bak", 5⟩] ⟨"a.bak", 5⟩ [] [] (by decide) (by decide)
  exact h.1

/-! ## Python dictionary model

Python dicts preserve insertion order and have unique keys; they are
modelled as association lists.  Assigning an existing key replaces its value
in place; assigning a fresh key appends at the end; `del` removes the pair.
(With unique keys, replacing/removing the first matching pair is exactly the
Python behaviour.) -/

/-- `d[k] = v` on a Python dict. -/
def dictSet {V : Type} : List (String × V) → String → V → List (String × V)
  | [], k, v => [(k, v)]
  | p :: ps, k, v => if p.1 = k then (k, v) :: ps else p :: dictSet ps k v

/-- `del d[k]` on a Python dict. -/
def dictDel {V : Type} (d : List (String × V)) (k : String) : List (String × V) :=
  d.filter (fun p => !(p.1 == k))

theorem lookup_dictSet_self {V : Type} (d : List (String × V)) (k : String) (v : V) :
    (dictSet d k v).lookup k = some v := by
  induction d with
  | nil => simp [dictSet, List.lookup]
  | cons p ps ih =>
    by_cases hpk : p.1 = k
    · simp [dictSet, hpk, List.lookup]
    · have h2 : (k == p.1) = false := by
        rw [beq_eq_false_iff_ne]; exact fun he => hpk he.symm
      simp [dictSet, hpk, List.lookup, h2, ih]

theorem lookup_dictSet_ne {V : Type} (d : List (String × V)) (k k' : String) (v : V)
    (h : k' ≠ k) : (dictSet d k v).lookup k' = d.lookup k' := by
  induction d with
  | nil =>
    have h1 : (k' == k) = false := by rw [beq_eq_false_iff_ne]; exact h
    simp [dictSet, List.lookup, h1]
  | cons p ps ih =>
    by_cases hpk : p.1 = k
    · have h1 : (k' == k) = false := by rw [beq_eq_false_iff_ne]; exact h
      have h2 : (k' == p.1) = false := by rw [beq_eq_false_iff_ne, hpk]; exact h
      simp [dictSet, hpk, List.lookup, h1, h2]
    · by_cases hk'p : k' = p.1
      · simp [dictSet, hpk, List.lookup, hk'p]
      · have h2 : (k' == p.1) = false := by rw [beq_eq_false_iff_ne]; exact hk'p
        simp [dictSet, hpk, List.lookup, h2, ih]

theorem lookup_dictDel_self {V : Type} (d : List (String × V)) (k : String) :
    (dictDel d k).lookup k = none := by
  induction d with
  | nil => rfl
  | cons p ps ih =>
    simp only [dictDel, List.filter_cons] at ih ⊢
    cases hpk : (p.1 == k) with
    | true => simpa [hpk] using ih
    | false =>
      have h2 : (k == p.1) = false := by
        rw [beq_eq_false_iff_ne] at hpk ⊢
        exact fun he => hpk he.symm
      simp [hpk, List.lookup, h2, ih]

theorem lookup_dictDel_ne {V : Type} (d : List (String × V)) (k k' : String)
    (h : k' ≠ k) : (dictDel d k).lookup k' = d.lookup k' := by
  induction d with
  | nil => rfl
  | cons p ps ih =>
    simp only [dictDel, List.filter_cons] at ih ⊢
    cases hpk : (p.1 == k) with
    | true =>
      have hp1 : p.1 = k := by rwa [beq_iff_eq] at hpk
      have h2 : (k' == p.1) = false := by rw [beq_eq_false_iff_ne, hp1]; exact h
      simp [hpk, List.lookup, h2, ih]
    | false =>
      cases hk'p : (k' == p.1) with
      | true =>
        have hke : k' = p.1 := by rwa [beq_iff_eq] at hk'p
        simp [hpk, List.lookup, hk'p]
      | false => simp [hpk, List.lookup, hk'p, ih]

/-! ## `update_word_in_entries` (csv_handler.py, lines 250–269)

The Python function assigns the old word's entry object to the new key,
mutates the shared entry object's `"word"` field, then deletes the old key.
When `new_word == old_word` the assignment is key-neutral and the deletion
then removes the entry altogether. -/

/-- A vocabulary entry as a Python dict of string fields. -/
abbrev PyEntry := List (String × String)

/-- Shallow embedding of `update_word_in_entries`. -/
def update_word_in_entries (current_entries : List (String × PyEntry))
    (old_word new_word : String) : List (String × PyEntry) :=
  match current_entries.lookup old_word with
  | none => current_entries
  | some entry =>
    -- current_entries[new_word] = current_entries[old_word];
    -- current_entries[new_word]["word"] = new_word; del current_entries[old_word]
    dictDel (dictSet current_entries new_word (dictSet entry "word" new_word)) old_word

/-- C10: if `old_word` is present and `new_word` differs, the result maps
`new_word` to the former entry with its `"word"` field set to `new_word`, no
longer contains `old_word`, and leaves every other key unchanged; if
`new_word` equals `old_word` and the word is present, the entry is removed
entirely; if `old_word` is absent the dictionary is returned unchanged. -/
theorem update_word_in_entries_spec (d : List (String × PyEntry))
    (old_word new_word : String) :
    (d.lookup old_word = none → update_word_in_entries d old_word new_word = d) ∧
    (∀ e, d.lookup old_word = some e → new_word ≠ old_word →
      (update_word_in_entries d old_word new_word).lookup new_word =
        some (dictSet e "word" new_word) ∧
      (update_word_in_entries d old_word new_word).lookup old_word = none ∧
      ∀ k, k ≠ old_word → k ≠ new_word →
        (update_word_in_entries d old_word new_word).lookup k = d.lookup k) ∧
    (∀ e, d.lookup old_word = some e → new_word = old_word →
      (update_word_in_entries d old_word new_word).lookup old_word = none ∧
      ∀ k, k ≠ old_word →
        (update_word_in_entries d old_word new_word).lookup k = d.lookup k) := by
  refine ⟨?_, ?_, ?_⟩
  · intro h
    unfold update_word_in_entries
    rw [h]
  · intro e he hne
    unfold update_word_in_entries
    rw [he]
    refine ⟨?_, ?_, ?_⟩
    · rw [lookup_dictDel_ne _ _ _ hne, lookup_dictSet_self]
    · exact lookup_dictDel_self _ _
    · intro k hk1 hk2
      rw [lookup_dictDel_ne _ _ _ hk1, lookup_dictSet_ne _ _ _ _ hk2]
  · intro e he hnw
    subst hnw
    unfold update_word_in_entries
    rw [he]
    exact ⟨lookup_dictDel_self _ _, fun k hk =>
      by rw [lookup_dictDel_ne _ _ _ hk, lookup_dictSet_ne _ _ _ _ hk]⟩

/-- Witness for C10 at a concrete input. -/
theorem update_word_in_entries_spec_witness :
    (update_word_in_entries [("brethen", [("word", "brethen")])] "brethen" "brethren").lookup
      "brethren" = some [("word", "brethren")] := by
  have h := (update_word_in_entries_spec [("brethen", [("word", "brethen")])]
    "brethen" "brethren").2.1 [("word", "brethen")] rfl (by decide)
  exact h.1

/-! ## `validate_entries_before_write` (csv_handler.py, lines 62–108)

The argument may be `None`, a non-dict object, or a dict whose values are
themselves dicts or non-dict objects; a value dict is checked for the
required keys `word`, `translation`, `example`. -/

/-- A value of the entries dict: either a Python dict (modelled by its key
set, in insertion order) or some non-dict object. -/
inductive PyEntryVal where
  | dict (keys : List String)
  | nondict
  deriving DecidableEq, Repr

/-- The argument passed to `validate_entries_before_write`. -/
inductive PyEntries where
  | pynone
  | nondict
  | dict (entries : List (String × PyEntryVal))
  deriving DecidableEq, Repr

structure ValidateWriteResult where
  valid : Bool
  entry_count : Nat
  error : Option String
  deriving DecidableEq, Repr

/-- The `for word, entry in entries.items()` loop of
`validate_entries_before_write`: the first malformed entry aborts with its
error message.  `missing_keys` is reported sorted (Python `sorted`);
filtering the alphabetically ordered required-key list gives that order. -/
def validateEntriesLoop (entry_count : Nat) :
    List (String × PyEntryVal) → ValidateWriteResult
  | [] => ⟨true, entry_count, none⟩
  | (word, entry) :: rest =>
    match entry with
    | .nondict =>
      ⟨false, entry_count, some ("Entry for '" ++ word ++ "' is not a dictionary")⟩
    | .dict keys =>
      let missing := ["example", "translation", "word"].filter
        (fun k => !(keys.contains k))
      if missing.isEmpty then validateEntriesLoop entry_count rest
      else
        ⟨false, entry_count,
          some ("Entry for '" ++ word ++ "' missing keys: " ++
            String.intercalate ", " missing)⟩

/-- Shallow embedding of `validate_entries_before_write`. -/
def validate_entries_before_write : PyEntries → ValidateWriteResult
  | .pynone => ⟨false, 0, some "Entries dictionary is None"⟩
  | .nondict => ⟨false, 0, some "Entries must be a dictionary"⟩
  | .dict entries =>
    if entries.length = 0 then ⟨false, 0, some "No entries to write"⟩
    else validateEntriesLoop entries.length entries

/-- An entry value that passes validation: a dict containing the three
required fields. -/
def entryWellFormed : PyEntryVal → Prop
  | .dict keys => "word" ∈ keys ∧ "translation" ∈ keys ∧ "example" ∈ keys
  | .nondict => False

instance : DecidablePred entryWellFormed := fun v =>
  match v with
  | .dict keys => by unfold entryWellFormed; infer_instance
  | .nondict => by unfold entryWellFormed; infer_instance

theorem validateEntriesLoop_ok (n : Nat) (entries : List (String × PyEntryVal))
    (h : ∀ p ∈ entries, entryWellFormed p.2) :
    validateEntriesLoop n entries = ⟨true, n, none⟩ := by
  induction entries with
  | nil => rfl
  | cons p rest ih =>
    obtain ⟨word, entry⟩ := p
    have hp := h (word, entry) (List.mem_cons_self _ _)
    cases entry with
    | nondict => exact absurd hp id
    | dict keys =>
      obtain ⟨h1, h2, h3⟩ := hp
      have hm : (["example", "translation", "word"].filter
          (fun k => !(keys.contains k))).isEmpty = true := by
        simp [List.filter_cons, List.isEmpty_iff, h1, h2, h3]
      simp only [validateEntriesLoop, hm, if_true]
      exact ih (fun q hq => h q (List.mem_cons_of_mem _ hq))

theorem validateEntriesLoop_bad (n : Nat) (entries : List (String × PyEntryVal))
    (h : ∃ p ∈ entries, ¬entryWellFormed p.2) :
    (validateEntriesLoop n entries).valid = false := by
  induction entries with
  | nil => simp at h
  | cons p rest ih =>
    obtain ⟨word, entry⟩ := p
    cases entry with
    | nondict => simp [validateEntriesLoop]
    | dict keys =>
      by_cases hm : (["example", "translation", "word"].filter
          (fun k => !(keys.contains k))).isEmpty = true
      · simp only [validateEntriesLoop, hm, if_true]
        apply ih
        rcases h with ⟨q, hq, hbad⟩
        rcases List.mem_cons.mp hq with rfl | hqr
        · exfalso
          apply hbad
          rw [List.isEmpty_iff, List.filter_eq_nil_iff] at hm
          unfold entryWellFormed
          refine ⟨?_, ?_, ?_⟩
          · simpa using hm "word" (by simp)
          · simpa using hm "translation" (by simp)
          · simpa using hm "example" (by simp)
        · exact ⟨q, hqr, hbad⟩
      · have hcond : ¬("example" ∈ keys ∧ "translation" ∈ keys ∧ "word" ∈ keys) := by
          rintro ⟨h1, h2, h3⟩
          exact hm (by simp [List.isEmpty_iff, List.filter_eq_nil_iff, h1, h2, h3])
        simp [validateEntriesLoop, hm, hcond]

/-- C8 counterexample: called on an absent (`None`) record set, the function
reports `"Entries dictionary is None"`, not `"No entries to write"` as the
claim states. -/
theorem validate_entries_counterexample :
    validate_entries_before_write .pynone =
      ⟨false, 0, some "Entries dictionary is None"⟩ ∧
    some "Entries dictionary is None" ≠ some "No entries to write" :=
  ⟨rfl, by decide⟩

/-- C8 (amended): an empty record set yields `valid = false` with error
`"No entries to write"` (an absent record set also yields `valid = false`,
but with error `"Entries dictionary is None"`); any entry that is not a
key-value structure or lacks one of the required fields `word`,
`translation`, `example` yields `valid = false`; in every other case the
result is `valid = true` with the entry count. -/
theorem validate_entries_spec (entries : List (String × PyEntryVal)) :
    validate_entries_before_write (.dict []) =
      ⟨false, 0, some "No entries to write"⟩ ∧
    validate_entries_before_write .pynone =
      ⟨false, 0, some "Entries dictionary is None"⟩ ∧
    validate_entries_before_write .nondict =
      ⟨false, 0, some "Entries must be a dictionary"⟩ ∧
    ((∃ p ∈ entries, ¬entryWellFormed p.2) →
      (validate_entries_before_write (.dict entries)).valid = false) ∧
    (entries ≠ [] → (∀ p ∈ entries, entryWellFormed p.2) →
      validate_entries_before_write (.dict entries) =
        ⟨true, entries.length, none⟩) := by
  refine ⟨rfl, rfl, rfl, ?_, ?_⟩
  · intro h
    have hne : entries ≠ [] := by
      rcases h with ⟨p, hp, _⟩
      exact List.ne_nil_of_mem hp
    have hlen : ¬entries.length = 0 := by simpa [List.length_eq_zero] using hne
    simp only [validate_entries_before_write, hlen, if_false]
    exact validateEntriesLoop_bad _ _ h
  · intro hne h
    have hlen : ¬entries.length = 0 := by simpa [List.length_eq_zero] using hne
    simp only [validate_entries_before_write, hlen, if_false]
    exact validateEntriesLoop_ok _ _ h

/-- Witness for C8 (amended) at a concrete input. -/
theorem validate_entries_spec_witness :
    validate_entries_before_write
      (.dict [("hello", .dict ["word", "translation", "example"])]) =
      ⟨true, 1, none⟩ := by
  have h := (validate_entries_spec
    [("hello", .dict ["word", "translation", "example"])]).2.2.2.2
  exact h (by decide) (by intro p hp; fin_cases hp; simp [entryWellFormed])

/-! ## `get_words_to_translate` (csv_handler.py, lines 307–337)

A parsed row of the vocabulary CSV.  `csv.DictReader` yields `None` for a
column missing from a short row, so each field is an `Option String`.  The
Python code tests `not row["translation"] or not row["example"]`: Python
truthiness, under which only `None` and the empty string count as falsy —
a whitespace-only string is truthy. -/

structure CsvRow where
  word : Option String
  translation : Option String
  «example» : Option String
  deriving DecidableEq, Repr

/-- Python truthiness of a cell value (`None` and `""` are falsy). -/
def cellTruthy : Option String → Bool
  | none => false
  | some s => !decide (s = "")

/-- Shallow embedding of `get_words_to_translate` on the parsed rows.
`.error` stands for raising `AllWordsTranslatedError`. -/
def get_words_to_translate (rows : List CsvRow) :
    Except Unit (List (Option String)) :=
  let words_to_translate :=
    (rows.filter (fun row => !cellTruthy row.translation || !cellTruthy row.«example»)).map
      (fun row => row.word)
  if words_to_translate.isEmpty then .error () else .ok words_to_translate

/-- The pending rows in the amended claim's reading: a row is pending when
its translation or example cell is missing or the empty string. -/
def pendingWordsSpec (rows : List CsvRow) : List (Option String) :=
  (rows.filter (fun row =>
    decide (row.translation.getD "" = "" ∨ row.«example».getD "" = ""))).map
    (fun row => row.word)

/-- C6 counterexample: a row whose translation is whitespace-only (blank
after trim, per the claim) is not treated as pending — the function raises
`AllWordsTranslatedError` instead of returning that word. -/
theorem get_words_to_translate_counterexample :
    (" " : String).toList = [' '] ∧ (' ').isWhitespace = true ∧
    get_words_to_translate [⟨some "a", some " ", some "x"⟩] = .error () := by
  refine ⟨rfl, by decide, rfl⟩

theorem not_cellTruthy_eq (v : Option String) :
    (!cellTruthy v) = decide (v.getD "" = "") := by
  cases v with
  | none => simp [cellTruthy]
  | some s => by_cases h : s = "" <;> simp [cellTruthy, h]

/-- C6 (amended): `get_words_to_translate` returns, in file order, exactly
the words of rows whose translation or example cell is missing or empty
(Python truthiness — a whitespace-only cell does NOT count as blank), and
raises `AllWordsTranslatedError` if and only if that list is empty. -/
theorem get_words_to_translate_spec (rows : List CsvRow) :
    (get_words_to_translate rows = .error () ↔ pendingWordsSpec rows = []) ∧
    (pendingWordsSpec rows ≠ [] →
      get_words_to_translate rows = .ok (pendingWordsSpec rows)) := by
  have hwords : (rows.filter
      (fun row => !cellTruthy row.translation || !cellTruthy row.«example»)).map
        (fun row => row.word) = pendingWordsSpec rows := by
    unfold pendingWordsSpec
    congr 1
    apply List.filter_congr
    intro row hrow
    by_cases h1 : row.translation.getD "" = "" <;>
      by_cases h2 : row.«example».getD "" = "" <;>
        simp [not_cellTruthy_eq, h1, h2]
  have heq : get_words_to_translate rows =
      (if (pendingWordsSpec rows).isEmpty then .error ()
       else .ok (pendingWordsSpec rows)) := by
    unfold get_words_to_translate
    rw [hwords]
  constructor
  · rw [heq]
    by_cases he : (pendingWordsSpec rows).isEmpty = true
    · simp [he, List.isEmpty_iff.mp he]
    · have hne : pendingWordsSpec rows ≠ [] :=
        fun h => he (List.isEmpty_iff.mpr h)
      simp [he, hne]
  · intro hne
    rw [heq]
    have h : ¬(pendingWordsSpec rows).isEmpty = true :=
      fun h => hne (List.isEmpty_iff.mp h)
    simp [h]

/-- Witness for C6 (amended) at a concrete input. -/
theorem get_words_to_translate_spec_witness :
    get_words_to_translate [⟨some "hola", some "", some ""⟩] =
      .ok [some "hola"] := by
  have h := (get_words_to_translate_spec [⟨some "hola", some "", some ""⟩]).2
  refine h ?_
  intro hcontra
  simp [pendingWordsSpec] at hcontra

/-! ## Python string primitives

Core `String` functions (`splitOn`, `trim`, `endsWith`) are implemented on
byte positions with well-founded recursion, which the kernel cannot unfold
when evaluating concrete witnesses; the embedding therefore implements the
Python string operations (`split`, `strip`, `endswith`, `in`) structurally
on character lists. -/

/-- Python `s.split(c)` for a single-character separator, on char lists:
`"".split(c) = [""]`, and a trailing separator yields a trailing `""`. -/
def pySplitList (c : Char) : List Char → List (List Char)
  | [] => [[]]
  | x :: xs =>
    match pySplitList c xs with
    | r :: rs => if x = c then [] :: r :: rs else (x :: r) :: rs
    | [] => [[]]

/-- Python `s.split(c)` for a single-character separator. -/
def pySplit (c : Char) (s : String) : List String :=
  (pySplitList c s.toList).map List.asString

/-- Python `s.strip()` (ASCII whitespace). -/
def pyStrip (s : String) : String :=
  List.asString
    (((s.toList.dropWhile Char.isWhitespace).reverse.dropWhile Char.isWhitespace).reverse)

/-- Python `s.endswith(t)`. -/
def pyEndsWith (s t : String) : Bool :=
  decide (t.toList <:+ s.toList)

/-- Python `t in s` (substring containment). -/
def pyContains (s t : String) : Bool :=
  decide (t.toList <:+: s.toList)

/-! ## `detect_word_mismatches` (csv_handler.py, lines 179–232) -/

/-- A value of the LM-response dict: a Python dict of fields, each field a
string or `None`.  (`convert_text_to_dict` always produces dicts, so the
embedding covers the dict-valued responses; Python truthiness of the dict is
non-emptiness of its field list.) -/
structure GEntry where
  fields : List (String × Option String)
  deriving DecidableEq, Repr

/-- Python `entry.get(k)`: `None` both for an absent key and a `None` value. -/
def gget (e : GEntry) (k : String) : Option String :=
  (e.fields.lookup k).join

/-- Python truthiness of the entry dict. -/
def entryTruthy (e : GEntry) : Bool := !e.fields.isEmpty

/-- Python truthiness of a field value (`None` and `""` are falsy). -/
def valueTruthy : Option String → Bool
  | none => false
  | some s => !decide (s = "")

/-- `_is_missing_or_blank` (csv_handler.py, lines 155–169). -/
def is_missing_or_blank : Option String → Bool
  | none => true
  | some s => decide (pyStrip s = "")

/-- The corrections scan of the absent/falsy-entry branch: response keys
whose data has a truthy `recognized_word`, differ from the original word,
and are not among the requested originals.  Python reports them through
`sorted(...)`; tied elements of a string sort are equal strings, so any
ascending sort is extensionally Python's stable sort. -/
def possibleCorrections (gpt_response : List (String × GEntry))
    (original_words : List String) (original_word : String) : List String :=
  ((gpt_response.filter (fun kd =>
      valueTruthy (gget kd.2 "recognized_word") &&
      !decide (kd.1 = original_word) &&
      !original_words.contains kd.1)).map (fun kd => kd.1)).insertionSort (· ≤ ·)

/-- How one original word is treated by the reconciler loop. -/
inductive WordClass where
  | mismatch (cands : List String)
  | missing
  | matched
  deriving DecidableEq, Repr

/-- The `if not entry:` branch: offer correction candidates when any exist,
otherwise report the word as missing. -/
def classify_fallback (gpt_response : List (String × GEntry))
    (original_words : List String) (w : String) : WordClass :=
  let cands := possibleCorrections gpt_response original_words w
  if cands.isEmpty then .missing else .mismatch cands

/-- One iteration of the `for original_word in original_words` loop. -/
def classify_word (gpt_response : List (String × GEntry))
    (original_words : List String) (w : String) : WordClass :=
  match gpt_response.lookup w with
  | some entry =>
    if entryTruthy entry then
      let recognized := gget entry "recognized_word"
      if is_missing_or_blank recognized then .missing
      else if recognized ≠ some w then .mismatch [recognized.getD ""]
      else .matched
    else classify_fallback gpt_response original_words w
  | none => classify_fallback gpt_response original_words w

/-- The loop, accumulating the `mismatches` and `missing_words` lists in
iteration order. -/
def detectAux (gpt_response : List (String × GEntry))
    (original_words : List String) :
    List String → List (String × List String) × List String
  | [] => ([], [])
  | w :: ws =>
    let rest := detectAux gpt_response original_words ws
    match classify_word gpt_response original_words w with
    | .mismatch cands => ((w, cands) :: rest.1, rest.2)
    | .missing => (rest.1, w :: rest.2)
    | .matched => rest

/-- Shallow embedding of `detect_word_mismatches`. -/
def detect_word_mismatches (original_words : List String)
    (gpt_response : List (String × GEntry)) :
    List (String × List String) × List String :=
  detectAux gpt_response original_words original_words

theorem detectAux_mem_mismatch {resp : List (String × GEntry)}
    {origs : List String} {w : String} {cands : List String}
    (hc : classify_word resp origs w = .mismatch cands) :
    ∀ ws, w ∈ ws → (w, cands) ∈ (detectAux resp origs ws).1 := by
  intro ws hw
  induction ws with
  | nil => simp at hw
  | cons v vs ih =>
    simp only [detectAux]
    rcases List.mem_cons.mp hw with rfl | hvs
    · rw [hc]
      exact List.mem_cons_self _ _
    · cases hv : classify_word resp origs v with
      | mismatch c => exact List.mem_cons_of_mem _ (ih hvs)
      | missing => exact ih hvs
      | matched => exact ih hvs

theorem detectAux_mem_missing {resp : List (String × GEntry)}
    {origs : List String} {w : String}
    (hc : classify_word resp origs w = .missing) :
    ∀ ws, w ∈ ws → w ∈ (detectAux resp origs ws).2 := by
  intro ws hw
  induction ws with
  | nil => simp at hw
  | cons v vs ih =>
    simp only [detectAux]
    rcases List.mem_cons.mp hw with rfl | hvs
    · rw [hc]
      exact List.mem_cons_self _ _
    · cases hv : classify_word resp origs v with
      | mismatch c => exact ih hvs
      | missing => exact List.mem_cons_of_mem _ (ih hvs)
      | matched => exact ih hvs

theorem detectAux_of_mem_mismatch {resp : List (String × GEntry)}
    {origs : List String} {w : String} :
    ∀ ws, w ∈ (detectAux resp origs ws).1.map Prod.fst →
      w ∈ ws ∧ ∃ cands, classify_word resp origs w = .mismatch cands := by
  intro ws
  induction ws with
  | nil => simp [detectAux]
  | cons v vs ih =>
    intro hw
    simp only [detectAux] at hw
    cases hv : classify_word resp origs v with
    | mismatch c =>
      rw [hv] at hw
      simp only [List.map_cons, List.mem_cons] at hw
      rcases hw with rfl | hw
      · exact ⟨List.mem_cons_self _ _, c, hv⟩
      · obtain ⟨h1, h2⟩ := ih hw
        exact ⟨List.mem_cons_of_mem _ h1, h2⟩
    | missing =>
      rw [hv] at hw
      obtain ⟨h1, h2⟩ := ih hw
      exact ⟨List.mem_cons_of_mem _ h1, h2⟩
    | matched =>
      rw [hv] at hw
      obtain ⟨h1, h2⟩ := ih hw
      exact ⟨List.mem_cons_of_mem _ h1, h2⟩

theorem detectAux_of_mem_missing {resp : List (String × GEntry)}
    {origs : List String} {w : String} :
    ∀ ws, w ∈ (detectAux resp origs ws).2 →
      w ∈ ws ∧ classify_word resp origs w = .missing := by
  intro ws
  induction ws with
  | nil => simp [detectAux]
  | cons v vs ih =>
    intro hw
    simp only [detectAux] at hw
    cases hv : classify_word resp origs v with
    | mismatch c =>
      rw [hv] at hw
      obtain ⟨h1, h2⟩ := ih hw
      exact ⟨List.mem_cons_of_mem _ h1, h2⟩
    | missing =>
      rw [hv] at hw
      simp only [List.mem_cons] at hw
      rcases hw with rfl | hw
      · exact ⟨List.mem_cons_self _ _, hv⟩
      · obtain ⟨h1, h2⟩ := ih hw
        exact ⟨List.mem_cons_of_mem _ h1, h2⟩
    | matched =>
      rw [hv] at hw
      obtain ⟨h1, h2⟩ := ih hw
      exact ⟨List.mem_cons_of_mem _ h1, h2⟩

theorem detectAux_count {resp : List (String × GEntry)}
    {origs : List String} (w : String) :
    ∀ ws : List String,
      ((detectAux resp origs ws).1.map Prod.fst).count w +
        ((detectAux resp origs ws).2).count w ≤ ws.count w := by
  intro ws
  induction ws with
  | nil => simp [detectAux]
  | cons v vs ih =>
    simp only [detectAux]
    cases hv : classify_word resp origs v with
    | mismatch c =>
      simp only [List.map_cons, List.count_cons]
      by_cases hvw : v = w <;> simp [hvw] <;> omega
    | missing =>
      simp only [List.count_cons]
      by_cases hvw : v = w <;> simp [hvw] <;> omega
    | matched =>
      simp only [List.count_cons]
      by_cases hvw : v = w <;> simp [hvw] <;> omega

/-- `entry.get(k)` returning a value forces the entry dict to be truthy. -/
theorem entryTruthy_of_gget {e : GEntry} {k : String} {s : String}
    (h : gget e k = some s) : entryTruthy e = true := by
  unfold gget at h
  cases hf : e.fields with
  | nil => rw [hf] at h; simp [List.lookup] at h
  | cons p ps => simp [entryTruthy, hf]

/-- The reconciler leaves a word untouched exactly when its response entry
is present with a non-blank `recognized_word` equal to the word itself. -/
theorem classify_word_matched_iff (resp : List (String × GEntry))
    (origs : List String) (w : String) :
    classify_word resp origs w = .matched ↔
      ∃ e, resp.lookup w = some e ∧ gget e "recognized_word" = some w ∧
        is_missing_or_blank (some w) = false := by
  unfold classify_word
  cases hl : resp.lookup w with
  | none =>
    simp only [classify_fallback]
    constructor
    · intro h
      by_cases hc : (possibleCorrections resp origs w).isEmpty <;>
        simp [hc] at h
    · rintro ⟨e, he, -⟩
      simp at he
  | some e =>
    by_cases ht : entryTruthy e = true
    · simp only [ht, if_true]
      by_cases hb : is_missing_or_blank (gget e "recognized_word") = true
      · simp only [hb, if_true]
        constructor
        · intro h; exact absurd h (by simp)
        · rintro ⟨e', he', hg, hnb⟩
          obtain rfl : e' = e := by simpa using he'.symm
          rw [hg] at hb
          rw [hb] at hnb
          exact absurd hnb (by simp)
      · simp only [Bool.not_eq_true] at hb
        simp only [hb, Bool.false_eq_true, if_false]
        by_cases hne : gget e "recognized_word" ≠ some w
        · rw [if_pos hne]
          constructor
          · intro h; exact absurd h (by simp)
          · rintro ⟨e', he', hg, -⟩
            obtain rfl : e' = e := by simpa using he'.symm
            exact absurd hg hne
        · rw [if_neg hne]
          rw [Ne, Decidable.not_not] at hne
          constructor
          · intro _
            exact ⟨e, rfl, hne, by rw [← hne]; exact hb⟩
          · intro _; rfl
    · simp only [ht, Bool.false_eq_true, if_false, classify_fallback]
      constructor
      · intro h
        by_cases hc : (possibleCorrections resp origs w).isEmpty <;>
          simp [hc] at h
      · rintro ⟨e', he', hg, -⟩
        obtain rfl : e' = e := by simpa using he'.symm
        exact absurd (entryTruthy_of_gget hg) ht

/-- Response used in the C4 example rows. -/
def respC4 : List (String × GEntry) :=
  [("brethen", ⟨[("recognized_word", some "brethren"),
                 ("translation", some "brothers"),
                 ("example", some "The brethren gather.")]⟩),
   ("hello", ⟨[("recognized_word", some "hello"),
               ("translation", some "bonjour"),
               ("example", some "Hello there.")]⟩)]

/-- Response used in the C4 counterexample: the entry for `"a"` exists but
is an empty dict (falsy in Python), and a stray key `"b"` carries a truthy
`recognized_word`. -/
def respC4cex : List (String × GEntry) :=
  [("a", ⟨[]⟩), ("b", ⟨[("recognized_word", some "x")]⟩)]

/-- C4 counterexample: the entry for `"a"` exists in the response and its
`recognized_word` is absent, yet `detect_word_mismatches` classifies `"a"`
as a mismatch (with the stray key as candidate), not as missing. -/
theorem detect_word_mismatches_counterexample :
    (respC4cex.lookup "a").isSome = true ∧
    gget ⟨[]⟩ "recognized_word" = none ∧
    detect_word_mismatches ["a"] respC4cex = ([("a", ["b"])], []) ∧
    ¬("a" ∈ (detect_word_mismatches ["a"] respC4cex).2) := by
  refine ⟨rfl, rfl, ?_, ?_⟩
  · rfl
  · decide

/-- C4 (amended): the two concrete classifications hold as stated; and for
every original word whose response entry is present and non-empty but has a
blank, whitespace-only or absent `recognized_word` the word is classified
missing, while a present non-blank `recognized_word` differing from the
original in any way (including only case) yields a mismatch with that single
candidate.  (An entry that is an empty dict is falsy in Python and is
treated like an absent entry instead.) -/
theorem detect_word_mismatches_spec :
    (detect_word_mismatches ["brethen", "hello"] respC4 =
      ([("brethen", ["brethren"])], []) ∧
     detect_word_mismatches ["brethen", "hello"] [] =
      ([], ["brethen", "hello"])) ∧
    (∀ original_words resp w e, w ∈ original_words →
      List.lookup w resp = some e → entryTruthy e = true →
      is_missing_or_blank (gget e "recognized_word") = true →
      w ∈ (detect_word_mismatches original_words resp).2) ∧
    (∀ original_words resp w e s, w ∈ original_words →
      List.lookup w resp = some e →
      gget e "recognized_word" = some s → is_missing_or_blank (some s) = false →
      s ≠ w →
      (w, [s]) ∈ (detect_word_mismatches original_words resp).1) := by
  refine ⟨⟨rfl, rfl⟩, ?_, ?_⟩
  · intro original_words resp w e hw hl ht hb
    apply detectAux_mem_missing _ _ hw
    unfold classify_word
    rw [hl]
    simp [ht, hb]
  · intro original_words resp w e s hw hl hg hb hne
    have hc : classify_word resp original_words w = .mismatch [s] := by
      unfold classify_word
      rw [hl]
      simp only [entryTruthy_of_gget hg, if_true, hg, hb, Bool.false_eq_true,
        if_false]
      have : (some s ≠ some w) := by simpa using hne
      simp [this]
    exact detectAux_mem_mismatch hc _ hw

/-- Witness for C4 (amended) at a concrete input. -/
theorem detect_word_mismatches_spec_witness :
    ("hej", ["hey"]) ∈
      (detect_word_mismatches ["hej"]
        [("hej", ⟨[("recognized_word", some "hey")]⟩)]).1 := by
  have h := detect_word_mismatches_spec.2.2 ["hej"]
    [("hej", ⟨[("recognized_word", some "hey")]⟩)] "hej"
    ⟨[("recognized_word", some "hey")]⟩ "hey"
    (by decide) rfl rfl (by decide) (by decide)
  exact h

/-- C9: on a duplicate-free list of original words, the mismatch and missing
lists only contain original words, each original word appears at most once
across the two lists (so they are disjoint), and a word appears in neither
exactly when its response entry is present with a non-blank
`recognized_word` equal to the word. -/
theorem detect_word_mismatches_disjoint (original_words : List String)
    (resp : List (String × GEntry)) (hnd : original_words.Nodup) :
    (∀ w, w ∈ (detect_word_mismatches original_words resp).1.map Prod.fst →
      w ∈ original_words) ∧
    (∀ w, w ∈ (detect_word_mismatches original_words resp).2 →
      w ∈ original_words) ∧
    (∀ w, ((detect_word_mismatches original_words resp).1.map Prod.fst).count w +
      ((detect_word_mismatches original_words resp).2).count w ≤ 1) ∧
    (∀ w, w ∈ original_words →
      ((w ∉ (detect_word_mismatches original_words resp).1.map Prod.fst ∧
        w ∉ (detect_word_mismatches original_words resp).2) ↔
        ∃ e, resp.lookup w = some e ∧ gget e "recognized_word" = some w ∧
          is_missing_or_blank (some w) = false)) := by
  refine ⟨?_, ?_, ?_, ?_⟩
  · intro w hw
    exact (detectAux_of_mem_mismatch _ hw).1
  · intro w hw
    exact (detectAux_of_mem_missing _ hw).1
  · intro w
    have h := @detectAux_count resp original_words w original_words
    have hle : original_words.count w ≤ 1 := List.nodup_iff_count_le_one.mp hnd w
    simp only [detect_word_mismatches]
    omega
  · intro w hw
    rw [← classify_word_matched_iff resp original_words w]
    constructor
    · rintro ⟨hm, hmiss⟩
      cases hc : classify_word resp original_words w with
      | mismatch c =>
        exact absurd (List.mem_map_of_mem Prod.fst
          (detectAux_mem_mismatch hc _ hw)) hm
      | missing => exact absurd (detectAux_mem_missing hc _ hw) hmiss
      | matched => rfl
    · intro hc
      constructor
      · intro hm
        obtain ⟨-, cands, hcm⟩ := detectAux_of_mem_mismatch _ hm
        rw [hc] at hcm
        exact WordClass.noConfusion hcm
      · intro hmiss
        obtain ⟨-, hcm⟩ := detectAux_of_mem_missing _ hmiss
        rw [hc] at hcm
        exact WordClass.noConfusion hcm

/-- Witness for C9 at a concrete input. -/
theorem detect_word_mismatches_disjoint_witness :
    "hello" ∉ (detect_word_mismatches ["hello"]
      [("hello", ⟨[("recognized_word", some "hello")]⟩)]).2 := by
  have h := (detect_word_mismatches_disjoint ["hello"]
    [("hello", ⟨[("recognized_word", some "hello")]⟩)] (by decide)).2.2.2
    "hello" (by decide)
  exact (h.mpr ⟨⟨[("recognized_word", some "hello")]⟩, rfl, rfl, by decide⟩).2

/-! ## `get_backup_format_version` (utils.py, lines 338–419) -/

structure FormatInfo where
  version : String
  columns : List String
  error : Option String
  deriving DecidableEq, Repr

/-- Non-blank lines of a raw backup (`content.splitlines()` filtered by
`line.strip()`; a trailing newline's empty tail is blank and filtered, so
splitting on the newline character is equivalent). -/
def nonblankLines (c : String) : List String :=
  (pySplit '\n' c).filter (fun l => !decide (pyStrip l = ""))

/-- The `for line_number, line in enumerate(lines, start=1)` scan over a raw
AI-response backup, tracking which column counts were seen; a line whose
count is neither 3 nor 4 aborts with its line number. -/
def scanTsvCounts : Nat → Bool → Bool → List String → FormatInfo
  | _, has3, has4, [] =>
    if has3 && !has4 then ⟨"3-col", ["word", "translation", "example"], none⟩
    else if has4 && !has3 then
      ⟨"4-col", ["original_word", "recognized_word", "translation", "example"],
        none⟩
    else ⟨"mixed", [], some "Mixed column counts in GPT response backup"⟩
  | ln, has3, has4, l :: ls =>
    let n := (pySplit '\t' l).length
    if n = 3 then scanTsvCounts (ln + 1) true has4 ls
    else if n = 4 then scanTsvCounts (ln + 1) has3 true ls
    else
      ⟨"unknown", [],
        some ("Line " ++ toString ln ++ " has " ++ toString n ++ " columns")⟩

/-- `csv.DictReader` fieldnames: `None` for an empty file, else the first
line split on commas.  (CSV quoting inside the header is not modelled; the
vocabulary headers contain none.) -/
def csvFieldnames (c : String) : Option (List String) :=
  if c = "" then none
  else some (pySplit ',' ((pySplit '\n' c).headD ""))

/-- Shallow embedding of `get_backup_format_version`; `content = none` models
a missing/unreadable file. -/
def get_backup_format_version (filename : String) (content : Option String) :
    FormatInfo :=
  match content with
  | none => ⟨"unknown", [], some "File does not exist"⟩
  | some c =>
    if pyEndsWith filename ".bak" && pyContains filename "gpt_request_" then
      if (nonblankLines c).isEmpty then ⟨"unknown", [], some "Empty file"⟩
      else scanTsvCounts 1 false false (nonblankLines c)
    else
      match csvFieldnames c with
      | none => ⟨"unknown", [], some "No header row"⟩
      | some columns =>
        if columns.all (["word", "translation", "example"].contains ·) &&
            ["word", "translation", "example"].all (columns.contains ·) then
          ⟨"3-col", columns, none⟩
        else if 4 ≤ columns.length then ⟨"4-col", columns, none⟩
        else ⟨"unknown", columns, none⟩

/-- The terminal classification of the scan from its two flags. -/
def tsvTerminal (has3 has4 : Bool) : FormatInfo :=
  if has3 && !has4 then ⟨"3-col", ["word", "translation", "example"], none⟩
  else if has4 && !has3 then
    ⟨"4-col", ["original_word", "recognized_word", "translation", "example"],
      none⟩
  else ⟨"mixed", [], some "Mixed column counts in GPT response backup"⟩

theorem scanTsvCounts_good (lines : List String) :
    ∀ ln h3 h4, (∀ l ∈ lines,
      (pySplit '\t' l).length = 3 ∨ (pySplit '\t' l).length = 4) →
    scanTsvCounts ln h3 h4 lines =
      tsvTerminal (h3 || lines.any (fun l => (pySplit '\t' l).length == 3))
        (h4 || lines.any (fun l => (pySplit '\t' l).length == 4)) := by
  induction lines with
  | nil => intro ln h3 h4 _; simp [scanTsvCounts, tsvTerminal]
  | cons l ls ih =>
    intro ln h3 h4 h
    have hl := h l (List.mem_cons_self _ _)
    have hrest := fun x hx => h x (List.mem_cons_of_mem _ hx)
    rcases hl with h3l | h4l
    · simp only [scanTsvCounts, h3l, if_pos rfl]
      rw [ih (ln + 1) true h4 hrest]
      simp [h3l, List.any_cons]
    · have hne : ¬((pySplit '\t' l).length = 3) := by omega
      simp only [scanTsvCounts, h4l, hne, if_false, if_pos rfl]
      rw [ih (ln + 1) h3 true hrest]
      simp [h4l, List.any_cons, hne]

theorem scanTsvCounts_bad (lines : List String) :
    ∀ ln h3 h4, (∃ l ∈ lines,
      (pySplit '\t' l).length ≠ 3 ∧ (pySplit '\t' l).length ≠ 4) →
    (scanTsvCounts ln h3 h4 lines).version = "unknown" ∧
    (scanTsvCounts ln h3 h4 lines).error.isSome = true := by
  induction lines with
  | nil => intro ln h3 h4 h; simp at h
  | cons l ls ih =>
    intro ln h3 h4 h
    by_cases hl3 : (pySplit '\t' l).length = 3
    · simp only [scanTsvCounts, hl3, if_pos rfl]
      apply ih
      rcases h with ⟨x, hx, hbad⟩
      rcases List.mem_cons.mp hx with rfl | hxs
      · exact absurd hl3 hbad.1
      · exact ⟨x, hxs, hbad⟩
    · by_cases hl4 : (pySplit '\t' l).length = 4
      · simp only [scanTsvCounts, hl3, if_false, hl4, if_pos rfl]
        apply ih
        rcases h with ⟨x, hx, hbad⟩
        rcases List.mem_cons.mp hx with rfl | hxs
        · exact absurd hl4 hbad.2
        · exact ⟨x, hxs, hbad⟩
      · simp [scanTsvCounts, hl3, hl4]

/-- C7 counterexample: a readable, non-empty raw AI-response backup with a
2-column line is classified `"unknown"` (with a line-number error), although
the claim allows `"unknown"` only for empty or unreadable files. -/
theorem get_backup_format_version_counterexample :
    get_backup_format_version "gpt_request_t.bak" (some "a\tb") =
      ⟨"unknown", [], some "Line 1 has 2 columns"⟩ ∧
    ("a\tb" : String) ≠ "" ∧ nonblankLines "a\tb" ≠ [] := by
  refine ⟨rfl, by decide, by decide⟩

/-- C7 (amended): for a `gpt_request_*.bak` file, the detector returns
`"3-col"` when every non-blank line has exactly 3 tab-separated fields,
`"4-col"` when every one has exactly 4, `"mixed"` when the counts vary but
every line has 3 or 4 fields, and `"unknown"` exactly when the file is
missing/unreadable, empty, or some non-blank line has a column count other
than 3 or 4. -/
theorem get_backup_format_version_spec (filename : String) (c : String)
    (hgpt : (pyEndsWith filename ".bak" && pyContains filename "gpt_request_")
      = true) :
    ((nonblankLines c ≠ [] ∧ ∀ l ∈ nonblankLines c,
        (pySplit '\t' l).length = 3) →
      (get_backup_format_version filename (some c)).version = "3-col") ∧
    ((nonblankLines c ≠ [] ∧ ∀ l ∈ nonblankLines c,
        (pySplit '\t' l).length = 4) →
      (get_backup_format_version filename (some c)).version = "4-col") ∧
    (((∀ l ∈ nonblankLines c,
        (pySplit '\t' l).length = 3 ∨ (pySplit '\t' l).length = 4) ∧
      (∃ l ∈ nonblankLines c, (pySplit '\t' l).length = 3) ∧
      (∃ l ∈ nonblankLines c, (pySplit '\t' l).length = 4)) →
      (get_backup_format_version filename (some c)).version = "mixed") ∧
    ((get_backup_format_version filename (some c)).version = "unknown" ↔
      (nonblankLines c = [] ∨ ∃ l ∈ nonblankLines c,
        (pySplit '\t' l).length ≠ 3 ∧ (pySplit '\t' l).length ≠ 4)) ∧
    (get_backup_format_version filename none).version = "unknown" := by
  have hform : ∀ h : ¬(nonblankLines c).isEmpty = true,
      get_backup_format_version filename (some c) =
        scanTsvCounts 1 false false (nonblankLines c) := by
    intro h
    simp only [get_backup_format_version]
    rw [if_pos hgpt, if_neg h]
  refine ⟨?_, ?_, ?_, ?_, rfl⟩
  · rintro ⟨hne, hall⟩
    have hisE : ¬(nonblankLines c).isEmpty = true :=
      fun h => hne (List.isEmpty_iff.mp h)
    rw [hform hisE, scanTsvCounts_good _ 1 false false
      (fun l hl => Or.inl (hall l hl))]
    have hany3 : (nonblankLines c).any
        (fun l => (pySplit '\t' l).length == 3) = true := by
      rcases List.exists_mem_of_ne_nil _ hne with ⟨x, hx⟩
      exact List.any_eq_true.mpr ⟨x, hx, by simp [hall x hx]⟩
    have hany4 : (nonblankLines c).any
        (fun l => (pySplit '\t' l).length == 4) = false := by
      rw [List.any_eq_false]
      intro x hx
      simp [hall x hx]
    simp [hany3, hany4, tsvTerminal]
  · rintro ⟨hne, hall⟩
    have hisE : ¬(nonblankLines c).isEmpty = true :=
      fun h => hne (List.isEmpty_iff.mp h)
    rw [hform hisE, scanTsvCounts_good _ 1 false false
      (fun l hl => Or.inr (hall l hl))]
    have hany4 : (nonblankLines c).any
        (fun l => (pySplit '\t' l).length == 4) = true := by
      rcases List.exists_mem_of_ne_nil _ hne with ⟨x, hx⟩
      exact List.any_eq_true.mpr ⟨x, hx, by simp [hall x hx]⟩
    have hany3 : (nonblankLines c).any
        (fun l => (pySplit '\t' l).length == 3) = false := by
      rw [List.any_eq_false]
      intro x hx
      simp [hall x hx]
    simp [hany3, hany4, tsvTerminal]
  · rintro ⟨hall, ⟨x3, hx3, h3⟩, ⟨x4, hx4, h4⟩⟩
    have hne : nonblankLines c ≠ [] := List.ne_nil_of_mem hx3
    have hisE : ¬(nonblankLines c).isEmpty = true :=
      fun h => hne (List.isEmpty_iff.mp h)
    rw [hform hisE, scanTsvCounts_good _ 1 false false hall]
    have hany3 : (nonblankLines c).any
        (fun l => (pySplit '\t' l).length == 3) = true :=
      List.any_eq_true.mpr ⟨x3, hx3, by simp [h3]⟩
    have hany4 : (nonblankLines c).any
        (fun l => (pySplit '\t' l).length == 4) = true :=
      List.any_eq_true.mpr ⟨x4, hx4, by simp [h4]⟩
    simp [hany3, hany4, tsvTerminal]
  · constructor
    · intro hu
      by_cases hE : (nonblankLines c).isEmpty = true
      · exact Or.inl (List.isEmpty_iff.mp hE)
      · refine Or.inr ?_
        by_contra hno
        push_neg at hno
        have hall : ∀ l ∈ nonblankLines c,
            (pySplit '\t' l).length = 3 ∨ (pySplit '\t' l).length = 4 := by
          intro l hl
          by_cases h3 : (pySplit '\t' l).length = 3
          · exact Or.inl h3
          · exact Or.inr (hno l hl h3)
        rw [hform hE, scanTsvCounts_good _ 1 false false hall] at hu
        unfold tsvTerminal at hu
        by_cases b3 : (nonblankLines c).any
            (fun l => (pySplit '\t' l).length == 3) = true <;>
          by_cases b4 : (nonblankLines c).any
              (fun l => (pySplit '\t' l).length == 4) = true <;>
            simp [b3, b4] at hu
    · intro h
      rcases h with hnil | ⟨x, hx, hbad⟩
      · simp only [get_backup_format_version]
        rw [if_pos hgpt, if_pos (List.isEmpty_iff.mpr hnil)]
      · have hne : nonblankLines c ≠ [] := List.ne_nil_of_mem hx
        have hisE : ¬(nonblankLines c).isEmpty = true :=
          fun h => hne (List.isEmpty_iff.mp h)
        rw [hform hisE]
        exact (scanTsvCounts_bad _ 1 false false ⟨x, hx, hbad⟩).1

/-- Witness for C7 (amended) at a concrete input. -/
theorem get_backup_format_version_spec_witness :
    (get_backup_format_version "gpt_request_t.bak"
      (some "a\tb\tc\na\tb\tc\td")).version = "mixed" := by
  have h := (get_backup_format_version_spec "gpt_request_t.bak"
    "a\tb\tc\na\tb\tc\td" (by decide)).2.2.1
  exact h (by decide)

/-! ## `migrate_gpt_response_backup` (recovery.py, lines 339–462) -/

structure MigrateResult where
  success : Bool
  output_path : Option String
  original_format : String
  rows_migrated : Nat
  error : Option String
  deriving DecidableEq, Repr

/-- The per-line migration loop: the (ordered) migrated lines, the number of
3-column rows rewritten, and the number of skipped rows.  Note that each line
is `strip()`ped before splitting — unlike the detector, which splits the raw
line. -/
def migrateLines : List String → List String × Nat × Nat
  | [] => ([], 0, 0)
  | l :: ls =>
    let rest := migrateLines ls
    if pyStrip l = "" then rest
    else
      match pySplit '\t' (pyStrip l) with
      | [word, translation, ex] =>
        ((word ++ "\t" ++ word ++ "\t" ++ translation ++ "\t" ++ ex) :: rest.1,
         rest.2.1 + 1, rest.2.2)
      | parts =>
        if parts.length = 4 then (pyStrip l :: rest.1, rest.2.1, rest.2.2)
        else (rest.1, rest.2.1, rest.2.2 + 1)

/-- The 3-column rewrite of one already-stripped line
(`word\ttranslation\texample` → `word\tword\ttranslation\texample`). -/
def rewrite3 (l : String) : String :=
  match pySplit '\t' l with
  | [word, translation, ex] =>
    word ++ "\t" ++ word ++ "\t" ++ translation ++ "\t" ++ ex
  | _ => l

/-- The lines the migration loop keeps: `content.strip().split("\n")`,
dropping lines blank after strip. -/
def migLines (c : String) : List String :=
  (pySplit '\n' (pyStrip c)).filter (fun l => !decide (pyStrip l = ""))

/-- Shallow embedding of `migrate_gpt_response_backup`.  The second component
is the file written (path and content), `none` when nothing is written. -/
def migrate_gpt_response_backup (filename : String) (content : Option String)
    (inputPath outputPath : String) :
    MigrateResult × Option (String × String) :=
  match content with
  | none =>
    (⟨false, none, "unknown", 0, some "Backup file does not exist"⟩, none)
  | some c =>
    match (get_backup_format_version filename (some c)).error with
    | some e =>
      (⟨false, none, (get_backup_format_version filename (some c)).version, 0,
        some e⟩, none)
    | none =>
      if (get_backup_format_version filename (some c)).version = "4-col" then
        (⟨true, some inputPath, "4-col", 0, none⟩, none)
      else if (get_backup_format_version filename (some c)).version ≠ "3-col" then
        (⟨false, none, (get_backup_format_version filename (some c)).version, 0,
          some ("Cannot migrate format: " ++
            (get_backup_format_version filename (some c)).version)⟩, none)
      else
        if 0 < (migrateLines (pySplit '\n' (pyStrip c))).2.2 then
          (⟨false, none, (get_backup_format_version filename (some c)).version, 0,
            some ("Skipped " ++
              toString (migrateLines (pySplit '\n' (pyStrip c))).2.2 ++
              " rows with unexpected column counts")⟩, none)
        else
          (⟨true, some outputPath, "3-col",
            (migrateLines (pySplit '\n' (pyStrip c))).2.1, none⟩,
           some (outputPath,
             String.intercalate "\n" (migrateLines (pySplit '\n' (pyStrip c))).1
               ++ "\n"))

theorem migrateLines_all3 (lines : List String)
    (h : ∀ l ∈ lines, pyStrip l ≠ "" → (pySplit '\t' (pyStrip l)).length = 3) :
    migrateLines lines =
      ((lines.filter (fun l => !decide (pyStrip l = ""))).map
        (fun l => rewrite3 (pyStrip l)),
       (lines.filter (fun l => !decide (pyStrip l = ""))).length, 0) := by
  induction lines with
  | nil => rfl
  | cons l ls ih =>
    have hrest := ih (fun x hx hb => h x (List.mem_cons_of_mem _ hx) hb)
    by_cases hb : pyStrip l = ""
    · simp [migrateLines, hb, hrest, List.filter_cons]
    · have h3 := h l (List.mem_cons_self _ _) hb
      obtain ⟨a, b, c', hsp⟩ := List.length_eq_three.mp h3
      simp only [migrateLines, hsp, hrest, hb, if_neg hb]
      simp [List.filter_cons, hb, rewrite3, hsp]

/-- C5 counterexample: the content `"a\tb\t"` is classified `"3-col"` by the
format detector (its single raw line splits into 3 tab-separated fields),
yet migration fails and writes nothing, because the migration loop strips
the line first, losing the trailing tab. -/
theorem migrate_gpt_response_backup_counterexample :
    (get_backup_format_version "gpt_request_t.bak" (some "a\tb\t")).version =
      "3-col" ∧
    (migrate_gpt_response_backup "gpt_request_t.bak" (some "a\tb\t")
      "in.bak" "out.bak").1.success = false ∧
    (migrate_gpt_response_backup "gpt_request_t.bak" (some "a\tb\t")
      "in.bak" "out.bak").2 = none := by
  refine ⟨rfl, rfl, rfl⟩

/-- C5 (amended): on an already 4-column backup the migration is a no-op
returning success with `output_path` equal to the input path and writing
nothing; on a 3-column AI-response backup each of whose lines still splits
into exactly 3 tab-separated fields after stripping its leading/trailing
whitespace, every line `word\ttranslation\texample` is rewritten to
`word\tword\ttranslation\texample` and the migration reports success with
the number of rows migrated; and if any non-blank line has a column count
other than 3 or 4 the whole migration fails without writing any output
file. -/
theorem migrate_gpt_response_backup_spec
    (filename c inputPath outputPath : String) :
    ((get_backup_format_version filename (some c)).error = none →
      (get_backup_format_version filename (some c)).version = "4-col" →
      migrate_gpt_response_backup filename (some c) inputPath outputPath =
        (⟨true, some inputPath, "4-col", 0, none⟩, none)) ∧
    ((get_backup_format_version filename (some c)).error = none →
      (get_backup_format_version filename (some c)).version = "3-col" →
      (∀ l ∈ pySplit '\n' (pyStrip c), pyStrip l ≠ "" →
        (pySplit '\t' (pyStrip l)).length = 3) →
      migrate_gpt_response_backup filename (some c) inputPath outputPath =
        (⟨true, some outputPath, "3-col", (migLines c).length, none⟩,
         some (outputPath,
           String.intercalate "\n"
             ((migLines c).map (fun l => rewrite3 (pyStrip l))) ++ "\n"))) ∧
    ((pyEndsWith filename ".bak" && pyContains filename "gpt_request_")
        = true →
      (∃ l ∈ nonblankLines c,
        (pySplit '\t' l).length ≠ 3 ∧ (pySplit '\t' l).length ≠ 4) →
      (migrate_gpt_response_backup filename (some c)
        inputPath outputPath).1.success = false ∧
      (migrate_gpt_response_backup filename (some c)
        inputPath outputPath).2 = none) := by
  refine ⟨?_, ?_, ?_⟩
  · intro herr hver
    simp only [migrate_gpt_response_backup]
    split
    · rename_i e he
      rw [herr] at he
      exact Option.noConfusion he
    · rw [if_pos hver]
  · intro herr hver hall
    have hml := migrateLines_all3 (pySplit '\n' (pyStrip c)) hall
    simp only [migrate_gpt_response_backup]
    split
    · rename_i e he
      rw [herr] at he
      exact Option.noConfusion he
    · rw [if_neg (by rw [hver]; decide), if_neg (by rw [hver]; simp), hml]
      simp only [migLines]
      rw [if_neg (by simp)]
  · intro hgpt hbad
    have hne : nonblankLines c ≠ [] := by
      rcases hbad with ⟨x, hx, -⟩
      exact List.ne_nil_of_mem hx
    have hisE : ¬(nonblankLines c).isEmpty = true :=
      fun h => hne (List.isEmpty_iff.mp h)
    have hform : get_backup_format_version filename (some c) =
        scanTsvCounts 1 false false (nonblankLines c) := by
      simp only [get_backup_format_version]
      rw [if_pos hgpt, if_neg hisE]
    have herr := (scanTsvCounts_bad (nonblankLines c) 1 false false hbad).2
    rw [← hform] at herr
    simp only [migrate_gpt_response_backup]
    split
    · exact ⟨rfl, rfl⟩
    · rename_i he
      rw [he] at herr
      exact absurd herr (by simp)

/-- Witness for C5 (amended): the round-trip example row. -/
theorem migrate_gpt_response_backup_spec_witness :
    migrate_gpt_response_backup "gpt_request_t.bak"
      (some "hello\t'bonjour'\t\"Hi\"") "in.bak" "out.bak" =
      (⟨true, some "out.bak", "3-col", 1, none⟩,
       some ("out.bak", "hello\thello\t'bonjour'\t\"Hi\"\n")) := by
  have h := (migrate_gpt_response_backup_spec "gpt_request_t.bak"
    "hello\t'bonjour'\t\"Hi\"" "in.bak" "out.bak").2.1 rfl rfl (by decide)
  exact h

/-! ## `restore_vocabulary_from_backup` (recovery.py, lines 92–188)

Supporting pieces: `validate_backup_parseable` (utils.py, lines 290–335),
`_is_valid_headerless_backup` (recovery.py, lines 16–44) and
`_migrate_headerless_to_csv` (recovery.py, lines 47–89).  The two paths
involved (the live vocabulary file and the `pre_restore_*.bak` snapshot) are
distinct files in distinct directories; the filesystem mutations are
recorded as an ordered event trace, and `shutil.copy` / output-write
failures (OSErrors) are modelled by success flags. -/

structure ValidationResult where
  valid : Bool
  rows : Nat
  error : Option String
  deriving DecidableEq, Repr

/-- Shallow embedding of `validate_backup_parseable` on the file content
(`none` = missing file).  Data rows are the non-empty lines after the
header, as `DictReader` skips blank rows; multi-line quoted rows are not
modelled (the claims do not depend on the row count). -/
def validate_backup_parseable (content : Option String) : ValidationResult :=
  match content with
  | none => ⟨false, 0, some "File does not exist"⟩
  | some c =>
    match csvFieldnames c with
    | none => ⟨false, 0, some "No header row found"⟩
    | some cols =>
      if ["word", "translation", "example"].all (cols.contains ·) then
        ⟨true, (((pySplit '\n' c).drop 1).filter (fun l => !decide (l = ""))).length,
          none⟩
      else
        ⟨false, 0,
          some ("Missing required columns: " ++ String.intercalate ", "
            (["example", "translation", "word"].filter
              (fun f => !cols.contains f)))⟩

/-- Shallow embedding of `_is_valid_headerless_backup` on the content. -/
def is_valid_headerless_backup (content : Option String) : Bool :=
  match content with
  | none => false
  | some c =>
    let lines := (pySplit '\n' (pyStrip c)).filter
      (fun l => !decide (pyStrip l = ""))
    !lines.isEmpty && lines.all (fun l =>
      (pySplit '\t' l).length = 3 || (pySplit '\t' l).length = 4)

/-- `csv` module field quoting (QUOTE_MINIMAL): quote a field containing the
delimiter, the quote character or a line break, doubling inner quotes. -/
def csvQuoteField (s : String) : String :=
  if pyContains s "," || pyContains s "\"" || pyContains s "\n" ||
      pyContains s "\r" then
    "\"" ++ String.intercalate "\"\"" (pySplit '\"' s) ++ "\""
  else s

/-- One `csv.writer` row (default line terminator `\r\n`). -/
def csvRowString (fields : List String) : String :=
  String.intercalate "," (fields.map csvQuoteField) ++ "\r\n"

/-- The rows `_migrate_headerless_to_csv` writes: a 3-column line keeps its
word, a 4-column line uses the recognized word; any other shape fails. -/
def headerlessRows : List String → Option (List String)
  | [] => some []
  | l :: ls =>
    match pySplit '\t' l with
    | [word, translation, ex] =>
      (headerlessRows ls).map (fun rest => csvRowString [word, translation, ex] :: rest)
    | [_, recognized, translation, ex] =>
      (headerlessRows ls).map
        (fun rest => csvRowString [recognized, translation, ex] :: rest)
    | _ => none

/-- Shallow embedding of `_migrate_headerless_to_csv`: the content written to
the output path, `none` when the migration reports failure. -/
def migrate_headerless_to_csv (c : String) : Option String :=
  let lines := (pySplit '\n' (pyStrip c)).filter
    (fun l => !decide (pyStrip l = ""))
  (headerlessRows lines).map (fun rows =>
    csvRowString ["word", "translation", "example"] ++ String.join rows)

structure RestoreResult where
  success : Bool
  restored_path : Option String
  pre_restore_backup : Option String
  error : Option String
  deriving DecidableEq, Repr

/-- A filesystem mutation performed by the restore. -/
inductive FsEvent where
  | writeFile (path : String) (content : String)
  deriving DecidableEq, Repr

/-- Replay an event trace on a filesystem. -/
def applyEvents (fs : FS) : List FsEvent → FS
  | [] => fs
  | .writeFile p c :: es => applyEvents (fsSet fs p c) es

/-- The result returned when the backup is neither a parseable headered CSV
nor a valid headerless legacy file. -/
def restoreValidationFailure (c : String) : RestoreResult × List FsEvent :=
  (⟨false, none, none,
    some ("Backup validation failed: " ++
      ((validate_backup_parseable (some c)).error.getD ""))⟩, [])

/-- Shallow embedding of `restore_vocabulary_from_backup`.  `backupContent` /
`liveContent` are the contents of the backup file and of the live vocabulary
file (`none` = missing); `snapshotOk` / `commitOk` model OSErrors of the
pre-restore `shutil.copy` and of the commit step.  Returns the result dict
together with the ordered trace of file writes performed.
`needs_header_migration` is true exactly when `validate_backup_parseable`
failed (the headerless check then passed the guard). -/
def restore_vocabulary_from_backup (backupContent liveContent : Option String)
    (livePath preRestorePath : String) (snapshotOk commitOk : Bool) :
    RestoreResult × List FsEvent :=
  match backupContent, liveContent with
  | none, _ => (⟨false, none, none, some "Backup file does not exist"⟩, [])
  | some c, some lc =>
    if ¬(validate_backup_parseable (some c)).valid ∧
        ¬is_valid_headerless_backup (some c) then
      restoreValidationFailure c
    else if snapshotOk then
      if ¬(validate_backup_parseable (some c)).valid then
        match migrate_headerless_to_csv c with
        | some migrated =>
          if commitOk then
            (⟨true, some livePath, some preRestorePath, none⟩,
             [.writeFile preRestorePath lc, .writeFile livePath migrated])
          else
            (⟨false, none, some preRestorePath,
              some "Failed to migrate headerless backup"⟩,
             [.writeFile preRestorePath lc])
        | none =>
          (⟨false, none, some preRestorePath,
            some "Failed to migrate headerless backup"⟩,
           [.writeFile preRestorePath lc])
      else
        if commitOk then
          (⟨true, some livePath, some preRestorePath, none⟩,
           [.writeFile preRestorePath lc, .writeFile livePath c])
        else
          (⟨false, none, some preRestorePath,
            some "Failed to restore from backup"⟩,
           [.writeFile preRestorePath lc])
    else
      (⟨false, none, none, some "Failed to create pre-restore backup"⟩, [])
  | some c, none =>
    if ¬(validate_backup_parseable (some c)).valid ∧
        ¬is_valid_headerless_backup (some c) then
      restoreValidationFailure c
    else if ¬(validate_backup_parseable (some c)).valid then
      match migrate_headerless_to_csv c with
      | some migrated =>
        if commitOk then
          (⟨true, some livePath, none, none⟩, [.writeFile livePath migrated])
        else
          (⟨false, none, none, some "Failed to migrate headerless backup"⟩, [])
      | none =>
        (⟨false, none, none, some "Failed to migrate headerless backup"⟩, [])
    else
      if commitOk then
        (⟨true, some livePath, none, none⟩, [.writeFile livePath c])
      else
        (⟨false, none, none, some "Failed to restore from backup"⟩, [])

/-- C2: restoring from an existing backup that is neither a parseable
headered vocabulary CSV nor a valid headerless (3/4 tab-column) file returns
`success = false` and performs no filesystem write at all (no pre-restore
snapshot, live path untouched); and whenever a live vocabulary file exists
and the restore reaches the commit step, the first write is the
`pre_restore` snapshot containing exactly the prior live content, and that
snapshot survives in the final filesystem even when the commit step fails. -/
theorem restore_vocabulary_from_backup_spec
    (c : String) (liveContent : Option String)
    (livePath preRestorePath : String) (snapshotOk commitOk : Bool) :
    ((validate_backup_parseable (some c)).valid = false →
      is_valid_headerless_backup (some c) = false →
      (restore_vocabulary_from_backup (some c) liveContent livePath
        preRestorePath snapshotOk commitOk).1.success = false ∧
      (restore_vocabulary_from_backup (some c) liveContent livePath
        preRestorePath snapshotOk commitOk).2 = []) ∧
    (∀ lc, liveContent = some lc → snapshotOk = true →
      ((validate_backup_parseable (some c)).valid = true ∨
        is_valid_headerless_backup (some c) = true) →
      livePath ≠ preRestorePath →
      (restore_vocabulary_from_backup (some c) liveContent livePath
        preRestorePath snapshotOk commitOk).2.head? =
        some (.writeFile preRestorePath lc) ∧
      ∀ fs : FS, applyEvents fs
        (restore_vocabulary_from_backup (some c) liveContent livePath
          preRestorePath snapshotOk commitOk).2 preRestorePath = some lc) := by
  constructor
  · intro hv hh
    have hg : ¬(validate_backup_parseable (some c)).valid = true ∧
        ¬is_valid_headerless_backup (some c) = true :=
      ⟨by rw [hv]; simp, by rw [hh]; simp⟩
    cases liveContent with
    | some lc =>
      simp only [restore_vocabulary_from_backup]
      rw [if_pos hg]
      exact ⟨rfl, rfl⟩
    | none =>
      simp only [restore_vocabulary_from_backup]
      rw [if_pos hg]
      exact ⟨rfl, rfl⟩
  · intro lc hlc hsnap hvh hne
    subst hlc
    subst hsnap
    have hg : ¬(¬(validate_backup_parseable (some c)).valid = true ∧
        ¬is_valid_headerless_backup (some c) = true) := by
      rcases hvh with h | h
      · exact fun hcon => hcon.1 h
      · exact fun hcon => hcon.2 h
    have hpre : ¬(preRestorePath = livePath) := fun h => hne h.symm
    simp only [restore_vocabulary_from_backup]
    rw [if_neg hg, if_pos trivial]
    by_cases hval : (validate_backup_parseable (some c)).valid = true
    · rw [if_neg (by simp [hval])]
      cases commitOk with
      | true =>
        refine ⟨rfl, fun fs => ?_⟩
        simp [applyEvents, fsSet, hpre]
      | false =>
        refine ⟨rfl, fun fs => ?_⟩
        simp [applyEvents, fsSet]
    · rw [if_pos (by simp [hval])]
      cases hm : migrate_headerless_to_csv c with
      | some m =>
        cases commitOk with
        | true =>
          refine ⟨rfl, fun fs => ?_⟩
          simp [applyEvents, fsSet, hpre]
        | false =>
          refine ⟨rfl, fun fs => ?_⟩
          simp [applyEvents, fsSet]
      | none =>
        refine ⟨rfl, fun fs => ?_⟩
        simp [applyEvents, fsSet]

/-- Witness for C2 at a concrete input: a valid headered backup restored over
an existing live file with a failing commit still leaves the pre-restore
snapshot holding the prior live content. -/
theorem restore_vocabulary_from_backup_spec_witness :
    applyEvents (fun _ => none)
      (restore_vocabulary_from_backup
        (some "word,translation,example\nhi,salut,Hi there\n")
        (some "word,translation,example\nold,vieux,Old\n")
        "vocab_list_english-french.csv"
        "pre_restore_2024.bak" true false).2 "pre_restore_2024.bak" =
      some "word,translation,example\nold,vieux,Old\n" := by
  have h := (restore_vocabulary_from_backup_spec
    "word,translation,example\nhi,salut,Hi there\n"
    (some "word,translation,example\nold,vieux,Old\n")
    "vocab_list_english-french.csv" "pre_restore_2024.bak" true false).2
    "word,translation,example\nold,vieux,Old\n" rfl rfl
    (Or.inl (by decide)) (by decide)
  exact h.2 (fun _ => none)

end VocabMaster
